import Mathlib

/-!
Shallow embedding of `libscrape.py` (a paginated catalog crawler that
extracts document links, filters them with a language heuristic, and
downloads the accepted ones), together with theorems settling the frozen
claims about its specification.

Strings are modelled as `List Char` (Python strings are sequences of
Unicode codepoints).  External effects (HTTP fetch, the wget capability,
the filesystem) are modelled as explicit environments passed to the
embedded functions.
-/

namespace Libscrape

/-! ## Constants (from the top of `libscrape.py`) -/

def PREFERRED_DOMAIN : List Char := "download.example.lol".data

def MAX_RETRIES : Nat := 3

def SERVICE_UNAVAILABLE_RETRIES : Nat := 2

/-- The common-English word list `COMMON_ENGLISH_WORDS`, verbatim. -/
def COMMON_ENGLISH_WORDS : List (List Char) :=
  (["the", "and", "of", "to", "a", "in", "is", "it", "you", "that", "he", "was", "for", "on",
    "are", "with", "as", "I", "his", "they", "be", "at", "one", "have", "this", "from", "or",
    "had", "by", "not", "but", "what", "all", "security", "architecture", "how", "why",
    "forensics", "series", "digital", "river", "publishers", "students", "research", "hunting",
    "book", "god", "system", "methods", "embedded", "controller", "learning", "crisis",
    "intervention", "stories", "born", "crime"]).map String.data

/-- The foreign stopword list `FOREIGN_STOPWORDS`, verbatim. -/
def FOREIGN_STOPWORDS : List (List Char) :=
  (["matemática", "psychologie", "etudes", "le", "la", "de", "del", "das", "dos", "es", "et",
    "für", "y", "en"]).map String.data

/-! ## Character-level building blocks

`pyLowerNat` models Python's `str.lower()` codepoint-wise on the blocks
this program can meet through its own constants and patterns: Basic Latin,
the Latin-1 supplement, the Greek block capitals used by the pattern
`[α-ωΑ-Ω]`, and the Cyrillic capitals; on every other codepoint it is the
identity. -/

def pyLowerNat (n : Nat) : Nat :=
  if 0x41 ≤ n ∧ n ≤ 0x5A then n + 0x20
  else if 0xC0 ≤ n ∧ n ≤ 0xDE ∧ n ≠ 0xD7 then n + 0x20
  else if 0x391 ≤ n ∧ n ≤ 0x3A9 ∧ n ≠ 0x3A2 then n + 0x20
  else if 0x400 ≤ n ∧ n ≤ 0x40F then n + 0x50
  else if 0x410 ≤ n ∧ n ≤ 0x42F then n + 0x20
  else n

def pyLower (c : Char) : Char := Char.ofNat (pyLowerNat c.toNat)

/-- `s.lower()` on a whole string. -/
def lowerStr (s : List Char) : List Char := s.map pyLower

/-- The union of the codepoint ranges of the `NON_ENGLISH_PATTERNS`
regexes in `is_english_file`: `[一-龥]` (CJK), `[α-ωΑ-Ω]` (Greek) and
`[а-яА-Я]` (Cyrillic). -/
def nonEnglishNat (n : Nat) : Bool :=
  (0x4E00 ≤ n && n ≤ 0x9FA5) ||
  (0x3B1 ≤ n && n ≤ 0x3C9) || (0x391 ≤ n && n ≤ 0x3A9) ||
  (0x430 ≤ n && n ≤ 0x44F) || (0x410 ≤ n && n ≤ 0x42F)

def isNonEnglishChar (c : Char) : Bool := nonEnglishNat c.toNat

/-- Model of the regex class `\w` (Unicode word character) on the blocks
relevant to this program: ASCII alphanumerics and underscore, the Latin-1
and Latin Extended letters, Greek, Cyrillic and the CJK ideographs.  Every
codepoint matched by `NON_ENGLISH_PATTERNS` is a word character. -/
def wordCharNat (n : Nat) : Bool :=
  (0x30 ≤ n && n ≤ 0x39) || (0x41 ≤ n && n ≤ 0x5A) || (0x61 ≤ n && n ≤ 0x7A) || (n == 0x5F) ||
  (n == 0xAA) || (n == 0xB5) || (n == 0xBA) ||
  (0xC0 ≤ n && n ≤ 0xFF && n != 0xD7 && n != 0xF7) ||
  (0x100 ≤ n && n ≤ 0x24F) ||
  (0x370 ≤ n && n ≤ 0x3FF) ||
  (0x400 ≤ n && n ≤ 0x4FF) ||
  (0x4E00 ≤ n && n ≤ 0x9FFF)

def isWordChar (c : Char) : Bool := wordCharNat c.toNat

/-! ## URL decoding (`urllib.parse.unquote`)

Byte-wise percent-decoding: each valid `%XX` pair becomes the codepoint
`XX`; an invalid escape is left as a literal `%`.  (Multi-byte UTF-8
percent-sequences are represented by their raw byte codepoints; no claim
depends on recombining them.) -/

def hexDigitVal (c : Char) : Option Nat :=
  if '0' ≤ c ∧ c ≤ '9' then some (c.toNat - '0'.toNat)
  else if 'a' ≤ c ∧ c ≤ 'f' then some (c.toNat - 'a'.toNat + 10)
  else if 'A' ≤ c ∧ c ≤ 'F' then some (c.toNat - 'A'.toNat + 10)
  else none

def unquote : List Char → List Char
  | [] => []
  | '%' :: a :: b :: rest =>
    match hexDigitVal a, hexDigitVal b with
    | some x, some y => Char.ofNat (16 * x + y) :: unquote rest
    | _, _ => '%' :: unquote (a :: b :: rest)
  | '%' :: rest => '%' :: unquote rest
  | c :: rest => c :: unquote rest

/-! ## Tokenization (`re.findall(r'\b\w+\b', ...)`)

`findall` with this pattern returns the maximal runs of word characters. -/

/-- Left-to-right scan: `acc` holds the reversed word-character run in
progress; a non-word character (or the end of input) closes the run. -/
def tokenizeAux : List Char → List Char → List (List Char)
  | [], acc => if acc.isEmpty then [] else [acc.reverse]
  | c :: cs, acc =>
    if isWordChar c then tokenizeAux cs (c :: acc)
    else if acc.isEmpty then tokenizeAux cs []
    else acc.reverse :: tokenizeAux cs []

def tokenize (s : List Char) : List (List Char) := tokenizeAux s []

/-! ## The classifier `is_english_file` -/

/-- `decoded_name = unquote(filename).lower()` (line 89). -/
def decodedName (filename : List Char) : List Char := lowerStr (unquote filename)

/-- `words = re.findall(r'\b\w+\b', decoded_name)` (line 106). -/
def classifierTokens (filename : List Char) : List (List Char) := tokenize (decodedName filename)

/-- `english_word_count = sum(word in COMMON_ENGLISH_WORDS for word in words)` (line 110). -/
def englishWordCount (filename : List Char) : Nat :=
  (classifierTokens filename).countP (fun w => decide (w ∈ COMMON_ENGLISH_WORDS))

/-- `found_foreign_words = [word for word in words if word in FOREIGN_STOPWORDS]` (line 113). -/
def foundForeignWords (filename : List Char) : List (List Char) :=
  (classifierTokens filename).filter (fun w => decide (w ∈ FOREIGN_STOPWORDS))

/-- `is_english_file` (lines 87-125).  The float comparison
`english_word_count / total_words < 0.4` is modelled exactly over the
rationals as `5 * count < 2 * total`; since both branches of that final
test return `True`, no rounding of `0.4` can change the result. -/
def is_english_file (filename : List Char) : Bool :=
  let decoded_name := decodedName filename
  if decoded_name.any isNonEnglishChar then false
  else
    let total_words := (classifierTokens filename).length
    let english_word_count := englishWordCount filename
    if !(foundForeignWords filename).isEmpty then false
    else if english_word_count == 0 || 5 * english_word_count < 2 * total_words then true
    else true

/-! ## URL parsing (`urllib.parse.urlparse`, the parts this program uses) -/

def isSchemeChar (c : Char) : Bool :=
  c.isAlpha || c.isDigit || c == '+' || c == '-' || c == '.'

/-- Strip a leading `scheme:` (a letter followed by scheme characters,
then a colon) from a URL, as `urlparse` does before looking for `//`. -/
def splitScheme (s : List Char) : List Char :=
  match s.dropWhile (fun c => c != ':'), s.takeWhile (fun c => c != ':') with
  | ':' :: rest, c0 :: cs0 => if c0.isAlpha && cs0.all isSchemeChar then rest else s
  | _, _ => s

/-- `urlparse(url).netloc`: the authority part, present only after `//`;
it runs up to the next `/`, `?` or `#`. -/
def netloc (url : List Char) : List Char :=
  match splitScheme url with
  | '/' :: '/' :: rest => rest.takeWhile (fun c => c != '/' && c != '?' && c != '#')
  | _ => []

/-- `urlparse(url).path`: what follows the authority, with query and
fragment stripped. -/
def urlPath (url : List Char) : List Char :=
  match splitScheme url with
  | '/' :: '/' :: rest =>
    (rest.dropWhile (fun c => c != '/' && c != '?' && c != '#')).takeWhile
      (fun c => c != '?' && c != '#')
  | r => r.takeWhile (fun c => c != '?' && c != '#')

/-- `needle` occurs as a contiguous substring of `hay` (Python's `in` on
strings). -/
def containsSubstring (needle : List Char) : List Char → Bool
  | [] => needle.isEmpty
  | c :: cs => needle.isPrefixOf (c :: cs) || containsSubstring needle cs

/-! ## The page fetcher `fetch_page_links` -/

/-- The filter applied to each extracted anchor href (lines 74-78):
`a['href'].lower().endswith(('.epub', '.pdf')) and PREFERRED_DOMAIN in
urlparse(a['href']).netloc`.  Note: `endswith` runs on the whole href
string, and the domain test is a substring test on the netloc. -/
def linkKept (href : List Char) : Bool :=
  (List.isSuffixOf ".epub".data (lowerStr href) || List.isSuffixOf ".pdf".data (lowerStr href))
    && containsSubstring PREFERRED_DOMAIN (netloc href)

/-- Modelled from the spec: the filter predicate as the spec words it —
"lowercase path ends with `.epub` or `.pdf`, and the href's host exactly
matches a configured preferred domain".  Kept for comparison with
`linkKept`, the predicate the source actually applies. -/
def specLinkKept (href : List Char) : Bool :=
  (List.isSuffixOf ".epub".data (lowerStr (urlPath href))
      || List.isSuffixOf ".pdf".data (lowerStr (urlPath href)))
    && netloc href == PREFERRED_DOMAIN

/-- One observed outcome of `requests.get` for one attempt: a successful
parse yielding the extracted anchor hrefs, a 404, a 503, another HTTP
error status (`raise_for_status` raises, caught as a request exception),
or a transport-level failure. -/
inductive FetchResponse where
  | ok (hrefs : List (List Char))
  | notFound
  | unavailable
  | httpError
  | transportError
deriving DecidableEq, Repr

/-- The attempt loop of `fetch_page_links` (lines 58-84).  `env i` is the
response the network gives to the `i`-th request; the result pairs the
returned link list with the number of requests issued.  A 404 returns `[]`
at once; a success returns the filtered hrefs; 503 sleeps and retries; an
exception retries; an exhausted loop falls through to `return []`. -/
def fetchFrom (env : Nat → FetchResponse) : Nat → Nat → List (List Char) × Nat
  | i, 0 => ([], i)
  | i, left + 1 =>
    match env i with
    | FetchResponse.ok hrefs => (hrefs.filter linkKept, i + 1)
    | FetchResponse.notFound => ([], i + 1)
    | FetchResponse.unavailable => fetchFrom env (i + 1) left
    | FetchResponse.httpError => fetchFrom env (i + 1) left
    | FetchResponse.transportError => fetchFrom env (i + 1) left

/-- `fetch_page_links` for one page, given the network environment. -/
def fetch_page_links (env : Nat → FetchResponse) : List (List Char) × Nat :=
  fetchFrom env 0 (SERVICE_UNAVAILABLE_RETRIES + 1)

/-! ## `friendly_filename` and the download scheduler `process_links` -/

/-- `url.split("/")[-1]`: the part after the last slash. -/
def lastSlashSegment (s : List Char) : List Char :=
  (s.reverse.takeWhile (fun c => c != '/')).reverse

/-- `friendly_filename` (lines 127-129). -/
def friendly_filename (url : List Char) : List Char := unquote (lastSlashSegment url)

/-- `process_links` (lines 168-192), reduced to its data flow: the list
of links handed to the download pool.  `list(set(links))` deduplicates by
exact string equality (its iteration order is unspecified and the spec
declares order insignificant); the classifier then keeps the links whose
friendly file name is accepted. -/
def process_links (links : List (List Char)) : List (List Char) :=
  let unique_links := links.dedup
  unique_links.filter (fun l => is_english_file (friendly_filename l))

/-! ## The crawl driver `process_page_with_retries` and `main` -/

/-- The page-level retry loop (lines 194-208): each iteration fetches the
page; an empty link list returns `True` ("no files found"), a non-empty
one is processed by `process_links` and also returns `True`; only an
exhausted loop would return `False`. -/
def pageAttempts (env : Nat → FetchResponse) : Nat → Bool
  | 0 => false
  | _ + 1 =>
    let file_links := (fetch_page_links env).1
    if file_links.isEmpty then true
    else
      let _schedule := process_links file_links
      true

def process_page_with_retries (env : Nat → FetchResponse) : Bool :=
  pageAttempts env MAX_RETRIES

/-- `main` (lines 210-217), reduced to its checkpoint writes: the pages
`p` in `[startPage, endPage]` for which `write_last_completed(p)` runs.
`envs p` is the network environment page `p` sees. -/
def mainCheckpoints (envs : Nat → Nat → FetchResponse) (startPage endPage : Nat) : List Nat :=
  (List.range' startPage (endPage + 1 - startPage)).filter
    (fun p => process_page_with_retries (envs p))

/-! ## The downloader `download_with_wget` -/

/-- One observed outcome of the `wget -c` subprocess for one attempt:
success (exit 0), the distinguished server-busy signal (exit 8), or any
other failing exit status. -/
inductive WgetResult where
  | success
  | busy
  | otherError (code : Nat)
deriving DecidableEq, Repr

inductive DownloadOutcome where
  | alreadyComplete
  | succeeded
  | failed
deriving DecidableEq, Repr

/-- The filesystem state the downloader touches: whether the file exists
at the final path in the downloads directory, and whether a (partial)
temp file exists in the working directory. -/
structure FsState where
  finalExists : Bool
  tempExists : Bool
deriving DecidableEq, Repr

/-- The result of one `download_with_wget` run: its return value, the
filesystem state it leaves, and how many wget invocations (network
transfers) it made. -/
structure DownloadRun where
  outcome : DownloadOutcome
  fs : FsState
  netCalls : Nat
deriving DecidableEq, Repr

/-- The attempt loop of `download_with_wget` (lines 141-166).  `env i` is
the result of the `i`-th wget invocation.  A failing attempt leaves a
partial temp file; on success the temp file is moved to the final path;
on any non-busy error the loop breaks at once; after the loop (break or
exhaustion) the cleanup `os.remove(temp_path)` deletes any partial file
and `False` is returned. -/
def downloadAttempts (env : Nat → WgetResult) : Nat → Nat → FsState → DownloadRun
  | i, 0, fs => ⟨DownloadOutcome.failed, { fs with tempExists := false }, i⟩
  | i, left + 1, fs =>
    match env i with
    | WgetResult.success =>
      ⟨DownloadOutcome.succeeded, { finalExists := true, tempExists := false }, i + 1⟩
    | WgetResult.busy => downloadAttempts env (i + 1) left { fs with tempExists := true }
    | WgetResult.otherError _ =>
      ⟨DownloadOutcome.failed, { fs with tempExists := false }, i + 1⟩

/-- `download_with_wget` (lines 131-166).  The source signals outcomes
with booleans; the early `return True` when the final path already exists
(lines 137-139) is the spec's `AlreadyComplete`, the post-loop `return
False` is `Failed`, and the in-loop `return True` is `Succeeded`. -/
def download_with_wget (env : Nat → WgetResult) (fs : FsState) : DownloadRun :=
  if fs.finalExists then ⟨DownloadOutcome.alreadyComplete, fs, 0⟩
  else downloadAttempts env 0 (SERVICE_UNAVAILABLE_RETRIES + 1) fs

/-! ## Helper lemmas -/

theorem toNat_ofNat_of_lt {n : Nat} (h : n < 0xD800) : (Char.ofNat n).toNat = n := by
  have hv : n.isValidChar := Or.inl h
  simp [Char.ofNat, hv, Char.ofNatAux, Char.toNat, UInt32.toNat]

theorem toNat_pyLower (c : Char) : (pyLower c).toNat = pyLowerNat c.toNat := by
  unfold pyLower pyLowerNat
  split_ifs with h1 h2 h3 h4 h5
  · exact toNat_ofNat_of_lt (by omega)
  · exact toNat_ofNat_of_lt (by omega)
  · exact toNat_ofNat_of_lt (by omega)
  · exact toNat_ofNat_of_lt (by omega)
  · exact toNat_ofNat_of_lt (by omega)
  · rw [Char.ofNat_toNat]

theorem nonEnglishNat_pyLowerNat {n : Nat} (h : nonEnglishNat n = true) :
    nonEnglishNat (pyLowerNat n) = true := by
  unfold nonEnglishNat at h ⊢
  unfold pyLowerNat
  simp only [Bool.or_eq_true, Bool.and_eq_true, decide_eq_true_eq] at h ⊢
  split_ifs <;> omega

theorem nonEnglishNat_of_pyLowerNat {n : Nat} (h : nonEnglishNat (pyLowerNat n) = true) :
    nonEnglishNat n = true := by
  unfold nonEnglishNat at h ⊢
  unfold pyLowerNat at h
  simp only [Bool.or_eq_true, Bool.and_eq_true, decide_eq_true_eq] at h ⊢
  split_ifs at h <;> omega

theorem wordCharNat_of_nonEnglishNat {n : Nat} (h : nonEnglishNat n = true) :
    wordCharNat n = true := by
  unfold nonEnglishNat at h
  unfold wordCharNat
  simp only [Bool.or_eq_true, Bool.and_eq_true, decide_eq_true_eq, beq_iff_eq,
    bne_iff_ne, ne_eq] at h ⊢
  omega

theorem isNonEnglishChar_pyLower {c : Char} (h : isNonEnglishChar c = true) :
    isNonEnglishChar (pyLower c) = true := by
  unfold isNonEnglishChar at h ⊢
  rw [toNat_pyLower]
  exact nonEnglishNat_pyLowerNat h

theorem isNonEnglishChar_of_pyLower {c : Char} (h : isNonEnglishChar (pyLower c) = true) :
    isNonEnglishChar c = true := by
  unfold isNonEnglishChar at h ⊢
  rw [toNat_pyLower] at h
  exact nonEnglishNat_of_pyLowerNat h

theorem isWordChar_of_isNonEnglishChar {c : Char} (h : isNonEnglishChar c = true) :
    isWordChar c = true :=
  wordCharNat_of_nonEnglishNat h

theorem tokenizeAux_ne_nil (s : List Char) (acc : List Char)
    (h : (∃ c ∈ s, isWordChar c = true) ∨ acc ≠ []) :
    tokenizeAux s acc ≠ [] := by
  induction s generalizing acc with
  | nil =>
    rcases h with ⟨c, hc, _⟩ | hacc
    · cases hc
    · simp [tokenizeAux, hacc]
  | cons d ds ih =>
    simp only [tokenizeAux]
    by_cases hd : isWordChar d = true
    · simp only [hd, if_true]
      exact ih _ (Or.inr (by simp))
    · simp only [hd]
      by_cases hacc : acc.isEmpty = true
      · simp only [hacc, if_true, if_false, Bool.false_eq_true]
        have hds : ∃ c ∈ ds, isWordChar c = true := by
          rcases h with ⟨c, hc, hw⟩ | hne
          · rcases List.mem_cons.mp hc with rfl | hcds
            · exact absurd hw hd
            · exact ⟨c, hcds, hw⟩
          · exact absurd (List.isEmpty_iff.mp hacc) hne
        exact ih _ (Or.inl hds)
      · simp [hacc]

theorem tokenize_ne_nil {s : List Char} {c : Char} (hc : c ∈ s) (hw : isWordChar c = true) :
    tokenize s ≠ [] :=
  tokenizeAux_ne_nil s [] (Or.inl ⟨c, hc, hw⟩)

/-! ## Claim theorems: the classifier -/

/-- C4: every file name whose decoded form contains at least one codepoint
in the CJK ideograph, Greek letter, or Cyrillic letter ranges is rejected
by `is_english_file`, regardless of any other tokens present; the script
scan is the first check, ahead of tokenization and the stopword test. -/
theorem c4_nonlatin_rejected (name : List Char)
    (h : ∃ c ∈ unquote name, isNonEnglishChar c = true) :
    is_english_file name = false := by
  obtain ⟨c, hc, hne⟩ := h
  have hmem : pyLower c ∈ decodedName name := List.mem_map_of_mem pyLower hc
  have hany : (decodedName name).any isNonEnglishChar = true :=
    List.any_eq_true.mpr ⟨pyLower c, hmem, isNonEnglishChar_pyLower hne⟩
  unfold is_english_file
  simp [hany]

theorem c4_nonlatin_rejected_witness :
    is_english_file "日book.pdf".data = false :=
  c4_nonlatin_rejected "日book.pdf".data ⟨'日', by decide, by decide⟩

/-- C3: every decoded file name with no codepoint in the designated
non-Latin ranges and no token equal to a foreign stopword is accepted,
including names with zero recognized English words: the English-word-ratio
test has no rejecting branch. -/
theorem c3_clean_accepted (name : List Char)
    (h1 : ∀ c ∈ unquote name, isNonEnglishChar c = false)
    (h2 : ∀ w ∈ classifierTokens name, w ∉ FOREIGN_STOPWORDS) :
    is_english_file name = true := by
  have hany : (decodedName name).any isNonEnglishChar = false := by
    rw [List.any_eq_false]
    intro x hx
    obtain ⟨c, hc, rfl⟩ := List.mem_map.mp hx
    intro hcontra
    have hcc := isNonEnglishChar_of_pyLower hcontra
    rw [h1 c hc] at hcc
    exact Bool.noConfusion hcc
  have hff : foundForeignWords name = [] := by
    rw [foundForeignWords, List.filter_eq_nil_iff]
    intro w hw
    simp [h2 w hw]
  unfold is_english_file
  simp [hany, hff, ite_self]

theorem c3_clean_accepted_witness :
    is_english_file "zzzz qqqq.pdf".data = true :=
  c3_clean_accepted "zzzz qqqq.pdf".data (by decide) (by decide)

/-- C9: every file name among whose (case-folded) tokens at least one is
exactly equal to a foreign stopword is rejected, even with no non-Latin
codepoints present. -/
theorem c9_stopword_rejected (name : List Char)
    (h : ∃ w ∈ classifierTokens name, w ∈ FOREIGN_STOPWORDS) :
    is_english_file name = false := by
  obtain ⟨w, hw, hstop⟩ := h
  unfold is_english_file
  by_cases hany : (decodedName name).any isNonEnglishChar = true
  · simp [hany]
  · have hne : foundForeignWords name ≠ [] := by
      intro hnil
      have hmem : w ∈ foundForeignWords name :=
        List.mem_filter.mpr ⟨hw, by simp [hstop]⟩
      rw [hnil] at hmem
      cases hmem
    have hemp : (foundForeignWords name).isEmpty = false :=
      List.isEmpty_eq_false.mpr hne
    simp [hany, hemp]

theorem c9_stopword_rejected_witness :
    is_english_file "matemática avanzada.pdf".data = false :=
  c9_stopword_rejected "matemática avanzada.pdf".data
    ⟨"matemática".data, by decide, by decide⟩

/-- C10: a file name whose decoded, lowercased form yields zero tokens is
accepted, and its English word count is zero, so the zero-count disjunct
short-circuits the ratio test before the division by the (zero) token
count: the classifier is total and the division is never reached. -/
theorem c10_zero_tokens_accepted (name : List Char)
    (h : classifierTokens name = []) :
    is_english_file name = true ∧ englishWordCount name = 0 := by
  have hcount : englishWordCount name = 0 := by
    rw [englishWordCount, h]
    rfl
  have hany : (decodedName name).any isNonEnglishChar = false := by
    rw [List.any_eq_false]
    intro c hc hcontra
    exact tokenize_ne_nil hc (isWordChar_of_isNonEnglishChar hcontra) h
  have hff : foundForeignWords name = [] := by
    rw [foundForeignWords, h]
    rfl
  refine ⟨?_, hcount⟩
  unfold is_english_file
  simp [hany, hff, hcount]

theorem c10_zero_tokens_accepted_witness :
    is_english_file "++--!!.  ".data = true ∧ englishWordCount "++--!!.  ".data = 0 :=
  c10_zero_tokens_accepted "++--!!.  ".data (by decide)

/-! ## Helper lemmas: the driver and the downloader -/

theorem process_page_with_retries_eq_true (env : Nat → FetchResponse) :
    process_page_with_retries env = true := by
  show pageAttempts env (2 + 1) = true
  simp only [pageAttempts]
  split
  · rfl
  · rfl

theorem downloadAttempts_succeeded {env : Nat → WgetResult} :
    ∀ (left i : Nat) (fs : FsState),
      (downloadAttempts env i left fs).outcome = DownloadOutcome.succeeded →
      (downloadAttempts env i left fs).fs = ⟨true, false⟩ := by
  intro left
  induction left with
  | zero =>
    intro i fs h
    simp [downloadAttempts] at h
  | succ n ih =>
    intro i fs h
    simp only [downloadAttempts] at h ⊢
    cases henv : env i
    · rfl
    · rw [henv] at h
      exact ih _ _ h
    · rw [henv] at h
      simp at h

theorem downloadAttempts_failed_temp {env : Nat → WgetResult} :
    ∀ (left i : Nat) (fs : FsState),
      (downloadAttempts env i left fs).outcome = DownloadOutcome.failed →
      (downloadAttempts env i left fs).fs.tempExists = false := by
  intro left
  induction left with
  | zero =>
    intro i fs _
    rfl
  | succ n ih =>
    intro i fs h
    simp only [downloadAttempts] at h ⊢
    cases henv : env i
    · rw [henv] at h
    · rw [henv] at h
      exact ih _ _ h
    · rfl

theorem downloadAttempts_stops {env : Nat → WgetResult} (code : Nat) :
    ∀ (k i left : Nat) (fs : FsState), k < left →
      (∀ j, j < k → env (i + j) = WgetResult.busy) →
      env (i + k) = WgetResult.otherError code →
      downloadAttempts env i left fs =
        ⟨DownloadOutcome.failed, ⟨fs.finalExists, false⟩, i + k + 1⟩ := by
  intro k
  induction k with
  | zero =>
    intro i left fs hlt hbusy herr
    obtain ⟨m, rfl⟩ : ∃ m, left = m + 1 := ⟨left - 1, by omega⟩
    simp only [downloadAttempts]
    rw [show i + 0 = i from rfl] at herr
    rw [herr]
  | succ k ih =>
    intro i left fs hlt hbusy herr
    obtain ⟨m, rfl⟩ : ∃ m, left = m + 1 := ⟨left - 1, by omega⟩
    simp only [downloadAttempts]
    have h0 : env i = WgetResult.busy := by
      have := hbusy 0 (by omega)
      simpa using this
    rw [h0]
    have hrec := ih (i + 1) m { fs with tempExists := true } (by omega)
      (fun j hj => by
        have := hbusy (j + 1) (by omega)
        rw [show i + (j + 1) = i + 1 + j by omega] at this
        exact this)
      (by rw [show i + 1 + k = i + (k + 1) by omega]; exact herr)
    rw [hrec, show i + 1 + k + 1 = i + (k + 1) + 1 from by omega]

/-! ## Claim theorems: fetcher, driver, downloader, scheduler -/

/-- C1, counterexample: the claim says a link is kept iff its path ends
(case-insensitively) in `.epub`/`.pdf` and its host equals the preferred
domain.  The code instead tests `endswith` on the whole href and
substring containment of the domain in the netloc: a host that merely
contains the preferred domain is kept, and so is an href whose `.pdf`
occurs only in the query string. -/
theorem c1_counterexample :
    fetch_page_links (fun _ => FetchResponse.ok
        ["https://evil-download.example.lol.attacker.com/x.pdf".data,
         "https://download.example.lol/file?fmt=.pdf".data]) =
      (["https://evil-download.example.lol.attacker.com/x.pdf".data,
        "https://download.example.lol/file?fmt=.pdf".data], 1) ∧
    specLinkKept "https://evil-download.example.lol.attacker.com/x.pdf".data = false ∧
    specLinkKept "https://download.example.lol/file?fmt=.pdf".data = false ∧
    netloc "https://evil-download.example.lol.attacker.com/x.pdf".data ≠ PREFERRED_DOMAIN := by
  refine ⟨by decide, by decide, by decide, by decide⟩

/-- C1, amended: on a successful fetch the returned links are exactly the
extracted hrefs satisfying `linkKept`: lowercased href ends in `.epub` or
`.pdf`, and the preferred domain occurs as a substring of the href's
netloc. -/
theorem c1_filter_amended (env : Nat → FetchResponse) (body : List (List Char))
    (h : env 0 = FetchResponse.ok body) :
    fetch_page_links env = (body.filter linkKept, 1) ∧
    ∀ href, href ∈ (fetch_page_links env).1 ↔ href ∈ body ∧ linkKept href = true := by
  have hf : fetch_page_links env = (body.filter linkKept, 1) := by
    show fetchFrom env 0 (2 + 1) = _
    simp only [fetchFrom]
    rw [h]
  refine ⟨hf, fun href => ?_⟩
  rw [hf]
  exact List.mem_filter

theorem c1_filter_amended_witness :
    fetch_page_links (fun _ => FetchResponse.ok
        ["https://download.example.lol/a.pdf".data, "not-a-candidate.txt".data]) =
      (List.filter linkKept
        ["https://download.example.lol/a.pdf".data, "not-a-candidate.txt".data], 1) :=
  (c1_filter_amended _ _ rfl).1

/-- C2, counterexample: with every attempt failing at transport level,
`fetch_page_links` exhausts its three attempts and returns `[]`, the
page-level driver still reports success, and `main` still writes the
checkpoint for the page (here page 7) — so the checkpoint is advanced on
an unrecovered fetch failure, contrary to the claim. -/
theorem c2_counterexample :
    fetch_page_links (fun _ => FetchResponse.transportError) = ([], 3) ∧
    process_page_with_retries (fun _ => FetchResponse.transportError) = true ∧
    mainCheckpoints (fun _ _ => FetchResponse.transportError) 7 7 = [7] := by
  refine ⟨rfl, rfl, rfl⟩

/-- C2, amended: the Crawl Driver writes a checkpoint for every page of
the range, including pages whose fetch attempts are all exhausted: an
exhausted fetch returns the empty list, which the driver cannot
distinguish from a genuine "no files found" and treats as completion. -/
theorem c2_checkpoint_amended (envs : Nat → Nat → FetchResponse)
    (startPage endPage : Nat) :
    mainCheckpoints envs startPage endPage =
      List.range' startPage (endPage + 1 - startPage) := by
  unfold mainCheckpoints
  exact List.filter_eq_self.mpr fun p _ => process_page_with_retries_eq_true (envs p)

/-- C6: a 404 on the first attempt makes `fetch_page_links` return the
empty list immediately (one request, no retries), the page-level driver
reports success, and the crawl over the single page `p` still records
`p` as completed. -/
theorem c6_notfound_completes (env : Nat → FetchResponse)
    (envs : Nat → Nat → FetchResponse) (p : Nat)
    (h : env 0 = FetchResponse.notFound) :
    fetch_page_links env = ([], 1) ∧ process_page_with_retries env = true ∧
      p ∈ mainCheckpoints envs p p := by
  refine ⟨?_, process_page_with_retries_eq_true env, ?_⟩
  · show fetchFrom env 0 (2 + 1) = _
    simp only [fetchFrom]
    rw [h]
  · unfold mainCheckpoints
    have hone : p + 1 - p = 1 := by omega
    rw [hone]
    simp [List.range', process_page_with_retries_eq_true]

theorem c6_notfound_completes_witness :
    fetch_page_links (fun _ => FetchResponse.notFound) = ([], 1) ∧
    process_page_with_retries (fun _ => FetchResponse.notFound) = true ∧
    42 ∈ mainCheckpoints (fun _ _ => FetchResponse.notFound) 42 42 :=
  c6_notfound_completes (fun _ => FetchResponse.notFound)
    (fun _ _ => FetchResponse.notFound) 42 rfl

/-- C5: if the destination already exists at the final path the download
returns `AlreadyComplete` with zero wget invocations; and after a run
that returns `Succeeded`, a further run on the resulting state is such an
`AlreadyComplete` no-op — downloading is idempotent. -/
theorem c5_already_complete_idempotent (env env' : Nat → WgetResult)
    (fs fs2 : FsState) (h2 : fs2.finalExists = true)
    (hsucc : (download_with_wget env fs).outcome = DownloadOutcome.succeeded) :
    download_with_wget env' fs2 = ⟨DownloadOutcome.alreadyComplete, fs2, 0⟩ ∧
    download_with_wget env' (download_with_wget env fs).fs =
      ⟨DownloadOutcome.alreadyComplete, (download_with_wget env fs).fs, 0⟩ := by
  have hshort : ∀ fs3 : FsState, fs3.finalExists = true →
      download_with_wget env' fs3 = ⟨DownloadOutcome.alreadyComplete, fs3, 0⟩ := by
    intro fs3 h3
    unfold download_with_wget
    rw [h3]
    rfl
  have hfinal : (download_with_wget env fs).fs.finalExists = true := by
    unfold download_with_wget at hsucc ⊢
    by_cases hfs : fs.finalExists = true
    · rw [hfs] at hsucc
      simp at hsucc
    · rw [Bool.not_eq_true] at hfs
      rw [hfs] at hsucc ⊢
      simp only [Bool.false_eq_true, if_false] at hsucc ⊢
      rw [downloadAttempts_succeeded _ _ _ hsucc]
  exact ⟨hshort fs2 h2, hshort _ hfinal⟩

theorem c5_already_complete_idempotent_witness :
    download_with_wget (fun _ => WgetResult.success) ⟨true, false⟩ =
      ⟨DownloadOutcome.alreadyComplete, ⟨true, false⟩, 0⟩ ∧
    download_with_wget (fun _ => WgetResult.success)
        (download_with_wget (fun _ => WgetResult.success) ⟨false, false⟩).fs =
      ⟨DownloadOutcome.alreadyComplete,
        (download_with_wget (fun _ => WgetResult.success) ⟨false, false⟩).fs, 0⟩ :=
  c5_already_complete_idempotent (fun _ => WgetResult.success)
    (fun _ => WgetResult.success) ⟨false, false⟩ ⟨true, false⟩ rfl rfl

/-- C7: a wget failure other than the server-busy signal (after `k` busy
attempts) stops the loop at once — `k + 1` invocations, not the full
budget — returning `Failed` with the partial temp file deleted; and every
run that returns `Failed` leaves no temp file behind. -/
theorem c7_nontransient_stops (env env2 : Nat → WgetResult) (fs fs2 : FsState)
    (k code : Nat) (hfin : fs.finalExists = false)
    (hk : k < SERVICE_UNAVAILABLE_RETRIES + 1)
    (hbusy : ∀ j, j < k → env j = WgetResult.busy)
    (herr : env k = WgetResult.otherError code)
    (hfail2 : (download_with_wget env2 fs2).outcome = DownloadOutcome.failed) :
    download_with_wget env fs = ⟨DownloadOutcome.failed, ⟨false, false⟩, k + 1⟩ ∧
    (download_with_wget env2 fs2).fs.tempExists = false := by
  constructor
  · unfold download_with_wget
    rw [hfin]
    simp only [Bool.false_eq_true, if_false]
    have hstops := downloadAttempts_stops code k 0 (SERVICE_UNAVAILABLE_RETRIES + 1) fs hk
      (fun j hj => by simpa using hbusy j hj) (by simpa using herr)
    rw [hfin] at hstops
    simpa using hstops
  · unfold download_with_wget at hfail2 ⊢
    by_cases hfs : fs2.finalExists = true
    · rw [hfs] at hfail2
      simp at hfail2
    · rw [Bool.not_eq_true] at hfs
      rw [hfs] at hfail2 ⊢
      simp only [Bool.false_eq_true, if_false] at hfail2 ⊢
      exact downloadAttempts_failed_temp _ _ _ hfail2

theorem c7_nontransient_stops_witness :
    download_with_wget (fun _ => WgetResult.otherError 1) ⟨false, false⟩ =
      ⟨DownloadOutcome.failed, ⟨false, false⟩, 1⟩ ∧
    (download_with_wget (fun _ => WgetResult.otherError 1) ⟨false, false⟩).fs.tempExists
      = false :=
  c7_nontransient_stops (fun _ => WgetResult.otherError 1)
    (fun _ => WgetResult.otherError 1) ⟨false, false⟩ ⟨false, false⟩ 0 1 rfl
    (by omega) (fun j hj => absurd hj (by omega)) rfl rfl

/-- C8: the links handed to the download pool are deduplicated by exact
URL equality before classification, so each URL occurs at most once in
the schedule, and a link is scheduled iff it occurred in the input and
its decoded file name is accepted by the classifier. -/
theorem c8_dedup_unique (links : List (List Char)) :
    (process_links links).Nodup ∧
    (∀ l, l ∈ process_links links ↔
      l ∈ links ∧ is_english_file (friendly_filename l) = true) := by
  have hnd : (process_links links).Nodup :=
    List.Nodup.filter _ (List.nodup_dedup links)
  refine ⟨hnd, fun l => ?_⟩
  unfold process_links
  rw [List.mem_filter, List.mem_dedup]

end Libscrape
